import Mathlib

/-!
Verification of the synthetic source-to-settle data generator
(`data/generate/generate_all_data.py`).

The generator is a single-pass, seeded script.  Every call to the Python
`random` module is modelled by an explicit oracle record (one field per call
site, indexed by the loop counter), together with a validity predicate that
states exactly the ranges the corresponding `random` primitive can produce.
A theorem quantified over all valid oracles covers every possible seed;
a concrete oracle gives one concrete reachable run.

Monetary values are rationals; Python `round(x, 2)` is modelled by exact
round-half-to-even at two decimals (`round2`).  Dates are integers (days);
`datetime.now()` is an explicit `now` parameter, because the script derives
all date ranges from the wall clock.

Only the fields and phases that the stated properties touch are modelled:
vendor master data, purchase orders and goods receipts, invoices, and
supplier history.  The events, manifest and document-rendering phases
consume but never feed back into these tables.
-/

/-- Python `IndexError`, as raised by `random.choice` on an empty sequence or
by an out-of-range positional lookup such as `.iloc[0]`.  It carries no
payload.  The constructor `preconditionFailed` is the error kind prescribed
by the design document (a "generation precondition failed" error carrying
the violated precondition and the requested counts); it is declared here only
so that the two kinds can be compared — the embedded source never produces
it. -/
inductive RunError where
  | indexError : RunError
  | preconditionFailed : String → Nat → Nat → Nat → RunError
deriving DecidableEq, Repr

/-- True exactly on the error kind prescribed by the design document. -/
def RunError.isPreconditionFailed : RunError → Bool
  | .preconditionFailed _ _ _ _ => true
  | _ => false

/-- Vendor status pool values. -/
inductive VStatus where
  | APPROVED | PENDING | REJECTED
deriving DecidableEq, Repr, Inhabited

/-- Vendor risk bands. -/
inductive RiskBand where
  | LOW | MEDIUM | HIGH
deriving DecidableEq, Repr, Inhabited

/-- Purchase-order status. -/
inductive PStatus where
  | OPEN | CLOSED
deriving DecidableEq, Repr, Inhabited

/-- Invoice status.  `PAID` is checked by the source when selecting a PO but
never occurs in the status pool. -/
inductive IStatus where
  | MATCHED | DUPLICATE | EXCEPTION | PENDING | PAID
deriving DecidableEq, Repr, Inhabited

/-- The three exception subtypes drawn by `random.choice` in the EXCEPTION
branch of the invoice loop. -/
inductive ExcType where
  | amount_mismatch | missing_po | date_issue
deriving DecidableEq, Repr, Inhabited

/-- Supplier recommendation values. -/
inductive Rec where
  | RENEW | MONITOR | RETENDER
deriving DecidableEq, Repr, Inhabited

/-- Supplier risk-trend values. -/
inductive Trend where
  | STABLE | IMPROVING | DECLINING
deriving DecidableEq, Repr, Inhabited

/-- Round-half-to-even to an integer, the behaviour of Python `round` on the
exact (rational) value. -/
def rndHE (q : ℚ) : ℤ :=
  if Int.fract q = 1/2 then (if Even ⌊q⌋ then ⌊q⌋ else ⌊q⌋ + 1) else round q

/-- Python `round(x, 2)` on the exact value: round-half-to-even at two
decimal places. -/
def round2 (q : ℚ) : ℚ := (rndHE (q * 100) : ℚ) / 100

/-- Zero-padded four-digit rendering, as produced by the `{i:04d}` format
specifier for the identifier counters (all counters stay below 10000). -/
def pad4 (n : Nat) : String :=
  let s := toString n
  String.mk (List.replicate (4 - s.length) '0') ++ s

/-- `f"PO-{i:04d}"`. -/
def poIdOf (i : Nat) : String := "PO-" ++ pad4 i

/-- `f"VENDOR-{i:04d}"`. -/
def vendorIdOf (i : Nat) : String := "VENDOR-" ++ pad4 i

/-- `random.choice` on a list: an `IndexError` on the empty list, otherwise
the element at the drawn position (the draw is the oracle value `k`, reduced
into range). -/
def pyChoice : List α → Nat → Except RunError α
  | [], _ => .error .indexError
  | a :: as, k => .ok ((a :: as).getD (k % (a :: as).length) a)

-- ===========================================================================
-- Phase 1: vendor master data
-- ===========================================================================

/-- `NUM_VENDORS` in the source. -/
def NUM_VENDORS : Nat := 20

/-- `NUM_POS` in the source. -/
def NUM_POS : Nat := 50

/-- `NUM_INVOICES` in the source. -/
def NUM_INVOICES : Nat := 80

/-- The fixed status pool: `['APPROVED'] * 15 + ['PENDING'] * 3 + ['REJECTED'] * 2`. -/
def statusesPool : List VStatus :=
  List.replicate 15 .APPROVED ++ List.replicate 3 .PENDING ++ List.replicate 2 .REJECTED

/-- The fixed risk pool: `['LOW'] * 12 + ['MEDIUM'] * 6 + ['HIGH'] * 2`. -/
def riskBandsPool : List RiskBand :=
  List.replicate 12 .LOW ++ List.replicate 6 .MEDIUM ++ List.replicate 2 .HIGH

/-- Modelled vendor record.  Fields that no later phase and no stated
property reads (names, contacts, tax strings, bank strings) are omitted. -/
structure Vendor where
  vendor_id : String
  status : VStatus
  risk_band : RiskBand
  onboarding_date : Int
deriving DecidableEq, Repr, Inhabited

/-- Oracle for the vendor loop: the two `random.shuffle` results and the
`random.randint(0, 150)` onboarding offset drawn per vendor. -/
structure VendorRand where
  statuses : List VStatus
  riskBands : List RiskBand
  onboardOffset : Nat → Nat

/-- The shuffles permute the fixed pools and the onboarding offset stays in
the `randint(0, 150)` range. -/
def VendorRand.Valid (r : VendorRand) : Prop :=
  r.statuses.Perm statusesPool ∧ r.riskBands.Perm riskBandsPool ∧
  ∀ i ∈ List.range (NUM_VENDORS + 1), r.onboardOffset i ≤ 150

/-- The vendor loop.  `start_date = datetime.now() - timedelta(days=180)`;
vendor `i` takes `statuses[i-1]` and `risk_bands[i-1]` from the shuffled
pools and onboards at `start_date + randint(0, 150)` days. -/
def genVendors (r : VendorRand) (now : Int) : List Vendor :=
  (List.range NUM_VENDORS).map fun k =>
    { vendor_id := vendorIdOf (k + 1)
      status := r.statuses.getD k .APPROVED
      risk_band := r.riskBands.getD k .LOW
      onboarding_date := now - 180 + (r.onboardOffset (k + 1) : Int) }

/-- `vendors_df[vendors_df['status'] == 'APPROVED']['vendor_id'].tolist()`. -/
def approvedIds (vs : List Vendor) : List String :=
  (vs.filter (fun v => v.status = .APPROVED)).map (fun v => v.vendor_id)

/-- Number of vendors carrying a given status in the output sequence. -/
def countStatus (vs : List Vendor) (s : VStatus) : Nat :=
  (vs.map (fun v => v.status)).count s

-- ===========================================================================
-- Phase 2: purchase orders and goods receipts
-- ===========================================================================

/-- Modelled purchase-order record. -/
structure PO where
  po_id : String
  vendor_id : String
  po_date : Int
  po_amount : ℚ
  status : PStatus
deriving DecidableEq, Repr, Inhabited

/-- Modelled goods-receipt record. -/
structure GR where
  gr_id : String
  po_id : String
  vendor_id : String
  gr_date : Int
  gr_amount : ℚ
deriving DecidableEq, Repr, Inhabited

/-- Oracle for the PO/GR loop, one field per `random` call site. -/
structure PoRand where
  vendorPick : Nat → Nat
  dateOffset : Nat → Nat
  amountRaw : Nat → ℚ
  hasGr : Nat → Bool
  grDateOffset : Nat → Nat
  grEqual : Nat → Bool
  grFrac : Nat → ℚ

/-- Ranges of the `random` primitives used by the PO/GR loop:
`randint(0, 90)` for the PO date, `uniform(50000, 5000000)` for the raw
amount, `randint(10, 40)` for the GR date offset and `uniform(0.95, 1.0)`
for the partial-receipt fraction. -/
def PoRand.Valid (r : PoRand) : Prop :=
  ∀ i ∈ List.range (NUM_POS + 1),
    r.dateOffset i ≤ 90 ∧
    50000 ≤ r.amountRaw i ∧ r.amountRaw i ≤ 5000000 ∧
    10 ≤ r.grDateOffset i ∧ r.grDateOffset i ≤ 40 ∧
    19/20 ≤ r.grFrac i ∧ r.grFrac i ≤ 1

/-- The purchase order of iteration `i`.  `po_start_date` is
`datetime.now() - timedelta(days=120)`; the status is CLOSED exactly when
the 70% goods-receipt draw fires for this iteration. -/
def mkPo (r : PoRand) (now : Int) (i : Nat) (vid : String) : PO :=
  { po_id := poIdOf i, vendor_id := vid,
    po_date := now - 120 + (r.dateOffset i : Int),
    po_amount := round2 (r.amountRaw i),
    status := if r.hasGr i then .CLOSED else .OPEN }

/-- The goods receipt generated for the PO of iteration `i` when the 70%
draw fires, with `cnt` receipts generated before it: its date adds
`randint(10, 40)` days to the PO date and its amount is the PO amount on the
80% draw and `round(po_amount * uniform(0.95, 1.0), 2)` otherwise. -/
def mkGr (r : PoRand) (now : Int) (i : Nat) (vid : String) (cnt : Nat) : GR :=
  { gr_id := "GR-" ++ pad4 (cnt + 1), po_id := poIdOf i, vendor_id := vid,
    gr_date := (now - 120 + (r.dateOffset i : Int)) + (r.grDateOffset i : Int),
    gr_amount :=
      if r.grEqual i then round2 (r.amountRaw i)
      else round2 (round2 (r.amountRaw i) * r.grFrac i) }

def genPoGrFrom (approved : List String) (r : PoRand) (now : Int) :
    Nat → Except RunError (List PO × List GR)
  | 0 => .ok ([], [])
  | n + 1 =>
    match genPoGrFrom approved r now n with
    | .error e => .error e
    | .ok (pos, grs) =>
      match pyChoice approved (r.vendorPick (n + 1)) with
      | .error e => .error e
      | .ok vid =>
        if r.hasGr (n + 1) then
          .ok (pos ++ [mkPo r now (n + 1) vid],
               grs ++ [mkGr r now (n + 1) vid grs.length])
        else
          .ok (pos ++ [mkPo r now (n + 1) vid], grs)

/-- The full PO/GR phase (`NUM_POS` purchase orders). -/
def genPoGr (approved : List String) (r : PoRand) (now : Int) :
    Except RunError (List PO × List GR) :=
  genPoGrFrom approved r now NUM_POS

-- ===========================================================================
-- Phase 3: invoices
-- ===========================================================================

/-- The fixed invoice status pool:
`['MATCHED'] * 50 + ['DUPLICATE'] * 10 + ['EXCEPTION'] * 15 + ['PENDING'] * 5`. -/
def invoiceStatusPool : List IStatus :=
  List.replicate 50 .MATCHED ++ List.replicate 10 .DUPLICATE ++
  List.replicate 15 .EXCEPTION ++ List.replicate 5 .PENDING

/-- Modelled invoice record.  Randomized fields no later phase and no stated
property reads (due date, submission date, payment terms, description, line
items) are omitted; `payment_date` is omitted because the `PAID` status that
would set it never occurs in the pool. -/
structure Invoice where
  invoice_id : String
  vendor_id : String
  invoice_number : String
  invoice_date : Int
  base_amount : ℚ
  cgst : ℚ
  sgst : ℚ
  igst : ℚ
  total_amount : ℚ
  status : IStatus
  po_reference : String
  gr_reference : String
deriving DecidableEq, Repr, Inhabited

/-- `base_amount = amount / 1.18` (18% GST assumption). -/
def taxBase (amount : ℚ) : ℚ := amount / (118/100)

/-- `round(base_amount * 0.09, 2)`, used for both CGST and SGST. -/
def taxComponent (amount : ℚ) : ℚ := round2 (taxBase amount * (9/100))

/-- `round(base_amount + cgst + sgst, 2)`. -/
def taxTotal (amount : ℚ) : ℚ :=
  round2 (taxBase amount + taxComponent amount + taxComponent amount)

/-- Oracle for the invoice loop, one field per `random` call site, indexed
by the 1-based invoice counter. -/
structure InvRand where
  pool : List IStatus
  poPick : Nat → Nat
  vendorPick : Nat → Nat
  amountRaw : Nat → ℚ
  dateOffset : Nat → Nat
  excType : Nat → ExcType
  excFactor : Nat → ℚ
  dupPick : Nat → Nat
  numSuffix : Nat → Nat

/-- The shuffled pool has one entry per invoice; the freestanding amount is
`uniform(10000, 1000000)`; the invoice date offset is `randint(0, 80)`; the
perturbation factor is `uniform(0.8, 1.3)`; the fresh number suffix has four
digits; and for `i > 10` the duplicate source draw is
`randint(max(0, i-20), i-2)` over 0-based positions into the invoices
generated so far. -/
def InvRand.Valid (r : InvRand) (k : Nat) : Prop :=
  r.pool.length = k ∧
  ∀ i ∈ List.range (k + 1),
    10000 ≤ r.amountRaw i ∧ r.amountRaw i ≤ 1000000 ∧
    r.dateOffset i ≤ 80 ∧
    8/10 ≤ r.excFactor i ∧ r.excFactor i ≤ 13/10 ∧
    r.numSuffix i < 10000 ∧
    (10 < i → i - 20 ≤ r.dupPick i ∧ r.dupPick i ≤ i - 2)

/-- Intermediate result of the vendor/PO selection at the top of the invoice
loop body. -/
structure Selection where
  vendor : String
  poRef : String
  grRef : String
  amount : ℚ
deriving DecidableEq, Repr

/-- Vendor and PO selection: a `MATCHED` (or dead-code `PAID`) status with a
nonempty CLOSED-PO list draws a PO and inherits its vendor, identifier and
amount, resolving the goods receipt by first match on `po_id`; any other
case draws an approved vendor, leaves the references empty and draws a
freestanding amount `round(uniform(10000, 1000000), 2)`. -/
def selectVendorPo (approved : List String) (posWithGr : List PO) (grs : List GR)
    (r : InvRand) (i : Nat) (status : IStatus) : Except RunError Selection :=
  if (status = .MATCHED ∨ status = .PAID) ∧ posWithGr ≠ [] then
    match pyChoice posWithGr (r.poPick i) with
    | .error e => .error e
    | .ok po =>
      let grRef : String :=
        match grs.find? (fun g => g.po_id = po.po_id) with
        | some g => g.gr_id
        | none => ""
      .ok ⟨po.vendor_id, po.po_id, grRef, po.po_amount⟩
  else
    match pyChoice approved (r.vendorPick i) with
    | .error e => .error e
    | .ok v => .ok ⟨v, "", "", round2 (r.amountRaw i)⟩

/-- The EXCEPTION block: `amount_mismatch` multiplies the amount by
`uniform(0.8, 1.3)` only when the PO reference is a nonempty string,
`missing_po` clears both references, and `date_issue` changes nothing. -/
def applyException (r : InvRand) (i : Nat) (status : IStatus)
    (amount : ℚ) (poRef grRef : String) : ℚ × String × String :=
  if status = .EXCEPTION then
    match r.excType i with
    | .amount_mismatch =>
      if poRef ≠ "" then (amount * r.excFactor i, poRef, grRef)
      else (amount, poRef, grRef)
    | .missing_po => (amount, "", "")
    | .date_issue => (amount, poRef, grRef)
  else (amount, poRef, grRef)

/-- Which anomaly the EXCEPTION block actually applies, as a function of the
drawn subtype and the PO reference at that point: the amount perturbation
fires only for `amount_mismatch` with a nonempty PO reference, the reference
strip fires for `missing_po`, and `date_issue` applies nothing. -/
inductive Anomaly where
  | perturbAmount | stripRefs
deriving DecidableEq, Repr

/-- The anomaly selected by the EXCEPTION block (see `applyException`). -/
def appliedAnomaly (t : ExcType) (poRef : String) : Option Anomaly :=
  match t with
  | .amount_mismatch => if poRef ≠ "" then some .perturbAmount else none
  | .missing_po => some .stripRefs
  | .date_issue => none

/-- `vendor_id.split('-')[1]`. -/
def vendorDigits (s : String) : String := (s.splitOn "-").getD 1 ""

/-- The body of one invoice-loop iteration after the vendor/PO selection
`sel`, at 1-based index `i = acc.length + 1` where `acc` holds the invoices
generated so far: status from the shuffled pool, the EXCEPTION block, then
the DUPLICATE block (for `i > 10` it copies `invoice_number` and `vendor_id`
verbatim from `acc[randint(max(0, i-20), i-2)]`, otherwise a fresh number is
synthesized from the vendor digits and a four-digit suffix), and finally the
tax fields. -/
def invMake (r : InvRand) (now : Int) (acc : List Invoice) (sel : Selection) :
    Invoice :=
  let i := acc.length + 1
  let status := r.pool.getD (i - 1) .MATCHED
  let exc := applyException r i status sel.amount sel.poRef sel.grRef
  let amount := exc.1
  let poRef := exc.2.1
  let grRef := exc.2.2
  let nv : String × String :=
    if status = .DUPLICATE ∧ 10 < i then
      let src := acc.getD (r.dupPick i) default
      (src.invoice_number, src.vendor_id)
    else
      ("INV-" ++ vendorDigits sel.vendor ++ "-" ++ pad4 (r.numSuffix i), sel.vendor)
  { invoice_id := "INV-" ++ pad4 i
    vendor_id := nv.2
    invoice_number := nv.1
    invoice_date := now - 90 + (r.dateOffset i : Int)
    base_amount := round2 (taxBase amount)
    cgst := taxComponent amount
    sgst := taxComponent amount
    igst := 0
    total_amount := taxTotal amount
    status := status
    po_reference := poRef
    gr_reference := grRef }

/-- One iteration of the invoice loop: the vendor/PO selection may raise,
everything after it is `invMake`. -/
def invStep (approved : List String) (posWithGr : List PO) (grs : List GR)
    (r : InvRand) (now : Int) (acc : List Invoice) : Except RunError Invoice :=
  match selectVendorPo approved posWithGr grs r (acc.length + 1)
      (r.pool.getD (acc.length + 1 - 1) .MATCHED) with
  | .error e => .error e
  | .ok sel => .ok (invMake r now acc sel)

/-- The invoice loop for indices `1..k`, preserving generation order. -/
def genInvoices (approved : List String) (posWithGr : List PO) (grs : List GR)
    (r : InvRand) (now : Int) : Nat → Except RunError (List Invoice)
  | 0 => .ok []
  | n + 1 =>
    match genInvoices approved posWithGr grs r now n with
    | .error e => .error e
    | .ok acc =>
      match invStep approved posWithGr grs r now acc with
      | .error e => .error e
      | .ok inv => .ok (acc ++ [inv])

-- ===========================================================================
-- Phase 4: supplier history
-- ===========================================================================

/-- Modelled supplier-history row.  The independently sampled score fields
and the cycle time, which no stated property reads, are omitted. -/
structure SupplierHistory where
  vendor_id : String
  total_invoices : Nat
  total_amount_paid : ℚ
  on_time_rate : ℚ
  dispute_rate : ℚ
  risk_band : RiskBand
  risk_trend : Trend
  recommendation : Rec
deriving DecidableEq, Repr, Inhabited

/-- Oracle for the supplier-history loop, indexed by the position in the
approved-vendor list. -/
structure SupRand where
  onTimeRaw : Nat → ℚ
  disputeRaw : Nat → ℚ
  trendPick : Nat → Bool

/-- The recommendation decision table, first match wins: RENEW, then
RETENDER, then MONITOR with a uniformly drawn STABLE or IMPROVING trend. -/
def recommendFor (onTime dispute : ℚ) (risk : RiskBand) (pick : Bool) :
    Rec × Trend :=
  if 95 < onTime ∧ dispute < 2 ∧ risk = .LOW then (.RENEW, .STABLE)
  else if onTime < 88 ∨ 4 < dispute ∨ risk = .HIGH then (.RETENDER, .DECLINING)
  else (.MONITOR, if pick then .STABLE else .IMPROVING)

/-- Sum of the `total_amount` column of a slice of invoices. -/
def sumTotals (invs : List Invoice) : ℚ := (invs.map (fun v => v.total_amount)).sum

/-- The supplier-history loop over the approved vendor identifiers: vendors
with no invoice are skipped; otherwise the KPIs are drawn
(`round(uniform(85, 98), 2)` and `round(uniform(0, 5), 2)`), the risk band
is looked up from the vendor table by identifier (an empty lookup would be a
positional `IndexError`), and the decision table fills recommendation and
trend. -/
def genSupplierHistoryFrom (vendors : List Vendor) (invoices : List Invoice)
    (r : SupRand) : List String → Nat → Except RunError (List SupplierHistory)
  | [], _ => .ok []
  | vid :: rest, idx =>
    let vinvs := invoices.filter (fun inv => inv.vendor_id = vid)
    if vinvs.isEmpty then
      genSupplierHistoryFrom vendors invoices r rest (idx + 1)
    else
      match vendors.find? (fun v => v.vendor_id = vid) with
      | none => .error .indexError
      | some v =>
        let onTime := round2 (r.onTimeRaw idx)
        let dispute := round2 (r.disputeRaw idx)
        let rt := recommendFor onTime dispute v.risk_band (r.trendPick idx)
        let row : SupplierHistory :=
          { vendor_id := vid, total_invoices := vinvs.length,
            total_amount_paid := round2 (sumTotals vinvs),
            on_time_rate := onTime, dispute_rate := dispute,
            risk_band := v.risk_band, risk_trend := rt.2,
            recommendation := rt.1 }
        match genSupplierHistoryFrom vendors invoices r rest (idx + 1) with
        | .error e => .error e
        | .ok tail => .ok (row :: tail)

/-- The supplier-history phase. -/
def genSupplierHistory (vendors : List Vendor) (invoices : List Invoice)
    (r : SupRand) : Except RunError (List SupplierHistory) :=
  genSupplierHistoryFrom vendors invoices r (approvedIds vendors) 0

-- ===========================================================================
-- The composed pipeline
-- ===========================================================================

/-- Oracle for one whole run. -/
structure PipelineRand where
  vendor : VendorRand
  po : PoRand
  inv : InvRand
  sup : SupRand

/-- All phase oracles valid, with the invoice pool a shuffle of the fixed
invoice status pool. -/
def PipelineRand.Valid (r : PipelineRand) : Prop :=
  r.vendor.Valid ∧ r.po.Valid ∧ r.inv.Valid NUM_INVOICES ∧
  r.inv.pool.Perm invoiceStatusPool

/-- The modelled output tables of one run. -/
structure PipelineOut where
  vendors : List Vendor
  pos : List PO
  grs : List GR
  invoices : List Invoice
  history : List SupplierHistory
deriving DecidableEq, Repr

/-- One full run: vendors, then POs and GRs over the approved vendors, then
invoices over the CLOSED POs, then supplier history.  `now` is the wall
clock the script reads through `datetime.now()`. -/
def runPipeline (r : PipelineRand) (now : Int) : Except RunError PipelineOut :=
  let vendors := genVendors r.vendor now
  let approved := approvedIds vendors
  match genPoGr approved r.po now with
  | .error e => .error e
  | .ok (pos, grs) =>
    match genInvoices approved (pos.filter (fun p => p.status = .CLOSED)) grs
        r.inv now NUM_INVOICES with
    | .error e => .error e
    | .ok invs =>
      match genSupplierHistory vendors invs r.sup with
      | .error e => .error e
      | .ok hist => .ok ⟨vendors, pos, grs, invs, hist⟩

deriving instance DecidableEq for Except

/-- Extract the payload of a successful run (used to name concrete runs). -/
def okD (e : Except RunError α) (d : α) : α :=
  match e with
  | .ok a => a
  | .error _ => d

instance (r : PoRand) : Decidable r.Valid := by
  unfold PoRand.Valid
  exact inferInstance

instance (r : InvRand) (k : Nat) : Decidable (r.Valid k) := by
  unfold InvRand.Valid
  exact inferInstance

-- ===========================================================================
-- Rounding lemmas
-- ===========================================================================

theorem rndHE_intCast (n : ℤ) : rndHE (n : ℚ) = n := by
  unfold rndHE
  rw [Int.fract_intCast, if_neg (by norm_num), round_intCast]

theorem rndHE_add_int_even (q : ℚ) (K : ℤ) (hK : Even K) :
    rndHE (q + (K : ℚ)) = rndHE q + K := by
  unfold rndHE
  rw [Int.fract_add_int, Int.floor_add_int]
  by_cases h : Int.fract q = 1/2
  · have hiff : Even (⌊q⌋ + K) ↔ Even ⌊q⌋ := by
      rw [Int.even_add]
      exact ⟨fun h2 => h2.mpr hK, fun h2 => iff_of_true h2 hK⟩
    by_cases he : Even ⌊q⌋
    · rw [if_pos h, if_pos h, if_pos he, if_pos (hiff.mpr he)]
    · rw [if_pos h, if_pos h, if_neg he, if_neg (fun hc => he (hiff.mp hc))]
      ring
  · rw [if_neg h, if_neg h, round_add_int]

theorem eq_floor_add_half {q : ℚ} (h : Int.fract q = 1/2) : q = (⌊q⌋ : ℚ) + 1/2 := by
  have := Int.fract_add_floor q
  linarith

theorem le_rndHE (q : ℚ) : q - 1/2 ≤ (rndHE q : ℚ) := by
  unfold rndHE
  by_cases h : Int.fract q = 1/2
  · rw [if_pos h]
    have hq := eq_floor_add_half h
    by_cases he : Even ⌊q⌋
    · rw [if_pos he]; linarith
    · rw [if_neg he]; push_cast; linarith
  · rw [if_neg h, round_eq]
    have := Int.sub_one_lt_floor (q + 1/2)
    linarith

theorem rndHE_le (q : ℚ) : (rndHE q : ℚ) ≤ q + 1/2 := by
  unfold rndHE
  by_cases h : Int.fract q = 1/2
  · rw [if_pos h]
    have hq := eq_floor_add_half h
    by_cases he : Even ⌊q⌋
    · rw [if_pos he]; linarith
    · rw [if_neg he]; push_cast; linarith
  · rw [if_neg h, round_eq]
    have := Int.floor_le (q + 1/2)
    linarith

theorem rndHE_le_ceil (q : ℚ) : rndHE q ≤ ⌈q⌉ := by
  unfold rndHE
  by_cases h : Int.fract q = 1/2
  · rw [if_pos h]
    have hq := eq_floor_add_half h
    have hlt : ⌊q⌋ < ⌈q⌉ := by
      rw [Int.lt_ceil]
      rw [hq]
      norm_num
    by_cases he : Even ⌊q⌋
    · rw [if_pos he]; omega
    · rw [if_neg he]; omega
  · rw [if_neg h, round_eq]
    have h1 : q + 1/2 ≤ (⌈q⌉ : ℚ) + 1/2 := by
      have := Int.le_ceil q
      linarith
    have h2 := Int.floor_le_floor h1
    rw [Int.floor_int_add] at h2
    have h3 : ⌊(1 : ℚ)/2⌋ = 0 := by norm_num [Int.floor_eq_iff]
    omega

theorem round2_le_of_le (x : ℚ) (P : ℤ) (h : x ≤ (P : ℚ) / 100) :
    round2 x ≤ (P : ℚ) / 100 := by
  unfold round2
  have h1 : x * 100 ≤ (P : ℚ) := by linarith
  have h2 : ⌈x * 100⌉ ≤ P := Int.ceil_le.mpr h1
  have h3 := rndHE_le_ceil (x * 100)
  have h4 : (rndHE (x * 100) : ℚ) ≤ (P : ℚ) := by exact_mod_cast le_trans h3 h2
  linarith

theorem round2_ge_sub (x : ℚ) : x - 1/200 ≤ round2 x := by
  unfold round2
  have := le_rndHE (x * 100)
  linarith

theorem round2_le_add (x : ℚ) : round2 x ≤ x + 1/200 := by
  unfold round2
  have := rndHE_le (x * 100)
  linarith

theorem round2_eq_int_div (x : ℚ) : round2 x = ((rndHE (x * 100) : ℤ) : ℚ) / 100 := rfl

/-- The emitted `base_amount` field is a whole number of cents, and adding the
two (identical, hence evenly many cents) tax components and re-rounding gives
back exactly the emitted `total_amount`. -/
theorem round2_tax_identity (a : ℚ) :
    round2 (round2 (taxBase a) + taxComponent a + taxComponent a) = taxTotal a := by
  set b := taxBase a with hb
  set B : ℤ := rndHE (b * 100) with hB
  set C : ℤ := rndHE (b * (9/100) * 100) with hC
  have hcomp : taxComponent a = (C : ℚ) / 100 := rfl
  have hr2 : round2 b = (B : ℚ) / 100 := rfl
  have hlhs : ((B : ℚ) / 100 + (C : ℚ) / 100 + (C : ℚ) / 100) * 100 = ((B + C + C : ℤ) : ℚ) := by
    push_cast
    ring
  have hrhs : (b + (C : ℚ) / 100 + (C : ℚ) / 100) * 100 = b * 100 + ((C + C : ℤ) : ℚ) := by
    push_cast
    ring
  unfold taxTotal
  rw [← hb, ← hcomp] at *
  rw [hcomp, hr2]
  unfold round2
  rw [hlhs, hrhs, rndHE_intCast, rndHE_add_int_even (b * 100) (C + C) ⟨C, rfl⟩]
  push_cast
  ring

-- ===========================================================================
-- Structural lemmas about the generators
-- ===========================================================================

theorem pyChoice_mem {α : Type} {l : List α} {k : Nat} {x : α}
    (h : pyChoice l k = .ok x) : x ∈ l := by
  cases l with
  | nil => cases h
  | cons a as =>
    have hx : (a :: as).getD (k % (a :: as).length) a = x := by
      cases h
      rfl
    have hlt : k % (a :: as).length < (a :: as).length :=
      Nat.mod_lt _ (by simp)
    rw [List.getD_eq_getElem _ _ hlt] at hx
    rw [← hx]
    exact List.getElem_mem hlt

theorem pyChoice_ok {α : Type} {l : List α} (h : l ≠ []) (k : Nat) :
    ∃ x, pyChoice l k = .ok x := by
  cases l with
  | nil => exact absurd rfl h
  | cons a as => exact ⟨_, rfl⟩

theorem genInvoices_succ_ok {approved posWithGr grs r now n l}
    (h : genInvoices approved posWithGr grs r now (n + 1) = .ok l) :
    ∃ acc inv, genInvoices approved posWithGr grs r now n = .ok acc ∧
      invStep approved posWithGr grs r now acc = .ok inv ∧ l = acc ++ [inv] := by
  unfold genInvoices at h
  split at h
  next e heq => cases h
  next acc heq =>
    split at h
    next e2 heq2 => cases h
    next inv heq2 =>
      cases h
      exact ⟨acc, inv, heq, heq2, rfl⟩

theorem genInvoices_length {approved posWithGr grs r now} :
    ∀ {n l}, genInvoices approved posWithGr grs r now n = .ok l → l.length = n := by
  intro n
  induction n with
  | zero => intro l h; cases h; rfl
  | succ n ih =>
    intro l h
    obtain ⟨acc, inv, hacc, _, rfl⟩ := genInvoices_succ_ok h
    simp [ih hacc]

/-- Every invoice of a successful run is produced by `invStep` on the prefix
generated before it. -/
theorem genInvoices_mem_step {approved posWithGr grs r now} :
    ∀ {n l inv}, genInvoices approved posWithGr grs r now n = .ok l → inv ∈ l →
      ∃ acc, genInvoices approved posWithGr grs r now acc.length = .ok acc ∧
        invStep approved posWithGr grs r now acc = .ok inv ∧ acc.length < n := by
  intro n
  induction n with
  | zero => intro l inv h hm; cases h; cases hm
  | succ n ih =>
    intro l inv h hm
    obtain ⟨acc, inv', hacc, hstep, rfl⟩ := genInvoices_succ_ok h
    rcases List.mem_append.mp hm with hm | hm
    · obtain ⟨acc', h1, h2, h3⟩ := ih hacc hm
      exact ⟨acc', h1, h2, Nat.lt_succ_of_lt h3⟩
    · have : inv = inv' := by
        cases hm with
        | head => rfl
        | tail _ hc => cases hc
      subst this
      have hl := genInvoices_length hacc
      exact ⟨acc, by rw [hl]; exact hacc, hstep, by omega⟩

theorem invStep_ok_elim {approved posWithGr grs r now acc inv}
    (h : invStep approved posWithGr grs r now acc = .ok inv) :
    ∃ sel, selectVendorPo approved posWithGr grs r (acc.length + 1)
        (r.pool.getD acc.length .MATCHED) = .ok sel ∧
      inv = invMake r now acc sel := by
  unfold invStep at h
  split at h
  next e heq => cases h
  next sel heq =>
    cases h
    exact ⟨sel, heq, rfl⟩

theorem invMake_status (r : InvRand) (now : Int) (acc : List Invoice)
    (sel : Selection) :
    (invMake r now acc sel).status = r.pool.getD acc.length .MATCHED := rfl

theorem invMake_poRef (r : InvRand) (now : Int) (acc : List Invoice)
    (sel : Selection) :
    (invMake r now acc sel).po_reference =
      (applyException r (acc.length + 1) (r.pool.getD acc.length .MATCHED)
        sel.amount sel.poRef sel.grRef).2.1 := rfl

theorem invMake_grRef (r : InvRand) (now : Int) (acc : List Invoice)
    (sel : Selection) :
    (invMake r now acc sel).gr_reference =
      (applyException r (acc.length + 1) (r.pool.getD acc.length .MATCHED)
        sel.amount sel.poRef sel.grRef).2.2 := rfl

theorem invMake_tax (r : InvRand) (now : Int) (acc : List Invoice)
    (sel : Selection) :
    ∃ A : ℚ, (invMake r now acc sel).base_amount = round2 (taxBase A) ∧
      (invMake r now acc sel).cgst = taxComponent A ∧
      (invMake r now acc sel).sgst = taxComponent A ∧
      (invMake r now acc sel).total_amount = taxTotal A :=
  ⟨(applyException r (acc.length + 1) (r.pool.getD acc.length .MATCHED)
      sel.amount sel.poRef sel.grRef).1, rfl, rfl, rfl, rfl⟩

theorem invMake_total (r : InvRand) (now : Int) (acc : List Invoice)
    (sel : Selection) :
    (invMake r now acc sel).total_amount =
      taxTotal (applyException r (acc.length + 1) (r.pool.getD acc.length .MATCHED)
        sel.amount sel.poRef sel.grRef).1 := rfl

theorem invMake_duplicate {r : InvRand} {now : Int} {acc : List Invoice}
    {sel : Selection}
    (hst : r.pool.getD acc.length .MATCHED = .DUPLICATE)
    (hi : 10 < acc.length + 1) :
    (invMake r now acc sel).invoice_number =
      (acc.getD (r.dupPick (acc.length + 1)) default).invoice_number ∧
    (invMake r now acc sel).vendor_id =
      (acc.getD (r.dupPick (acc.length + 1)) default).vendor_id := by
  have hst2 := hst
  rw [List.getD_eq_getElem?_getD] at hst2
  unfold invMake
  simp [hst2, hi]

theorem invMake_vendor_not_dup {r : InvRand} {now : Int} {acc : List Invoice}
    {sel : Selection}
    (h : ¬(r.pool.getD acc.length .MATCHED = .DUPLICATE ∧ 10 < acc.length + 1)) :
    (invMake r now acc sel).vendor_id = sel.vendor := by
  unfold invMake
  simp only [Nat.add_sub_cancel]
  rw [if_neg h]

theorem applyException_not_exception {r : InvRand} {i : Nat} {status : IStatus}
    {amount : ℚ} {poRef grRef : String} (h : status ≠ .EXCEPTION) :
    applyException r i status amount poRef grRef = (amount, poRef, grRef) := by
  unfold applyException
  rw [if_neg h]

theorem applyException_empty_refs (r : InvRand) (i : Nat) (amount : ℚ) :
    applyException r i .EXCEPTION amount "" "" = (amount, "", "") := by
  unfold applyException
  rw [if_pos rfl]
  cases r.excType i <;> simp

theorem selectVendorPo_not_po {approved : List String} {posWithGr : List PO}
    {grs : List GR} {r : InvRand} {i : Nat} {status : IStatus} {sel : Selection}
    (hc : ¬((status = .MATCHED ∨ status = .PAID) ∧ posWithGr ≠ []))
    (h : selectVendorPo approved posWithGr grs r i status = .ok sel) :
    sel.vendor ∈ approved ∧ sel.poRef = "" ∧ sel.grRef = "" ∧
    sel.amount = round2 (r.amountRaw i) := by
  unfold selectVendorPo at h
  rw [if_neg hc] at h
  split at h
  next => cases h
  next v heq =>
    cases h
    exact ⟨pyChoice_mem heq, rfl, rfl, rfl⟩

theorem selectVendorPo_po {approved : List String} {posWithGr : List PO}
    {grs : List GR} {r : InvRand} {i : Nat} {status : IStatus} {sel : Selection}
    (hc : (status = .MATCHED ∨ status = .PAID) ∧ posWithGr ≠ [])
    (h : selectVendorPo approved posWithGr grs r i status = .ok sel) :
    ∃ po ∈ posWithGr, sel.vendor = po.vendor_id ∧ sel.poRef = po.po_id ∧
      sel.amount = po.po_amount := by
  unfold selectVendorPo at h
  rw [if_pos hc] at h
  split at h
  next => cases h
  next po heq =>
    cases h
    exact ⟨po, pyChoice_mem heq, rfl, rfl, rfl⟩

theorem poIdOf_inj : ∀ i ∈ List.range (NUM_POS + 1), ∀ j ∈ List.range (NUM_POS + 1),
    poIdOf i = poIdOf j → i = j := by decide!

theorem poIdOf_ne {i j : Nat} (hi : i ≤ NUM_POS) (hj : j ≤ NUM_POS) (hne : i ≠ j) :
    poIdOf i ≠ poIdOf j := fun hc =>
  hne (poIdOf_inj i (List.mem_range.mpr (by omega)) j (List.mem_range.mpr (by omega)) hc)

theorem getD_append_left {α : Type} {l l2 : List α} {n : Nat} (h : n < l.length)
    (d : α) : (l ++ l2).getD n d = l.getD n d := by
  simp [List.getD_eq_getElem?_getD, List.getElem?_append_left h]

theorem getD_append_last {α : Type} {l : List α} {x : α} (d : α) :
    (l ++ [x]).getD l.length d = x := by
  simp [List.getD_eq_getElem?_getD, List.getElem?_append_right (Nat.le_refl _)]

theorem genPoGrFrom_succ_ok {approved : List String} {r : PoRand} {now : Int}
    {n : Nat} {pos : List PO} {grs : List GR}
    (h : genPoGrFrom approved r now (n + 1) = .ok (pos, grs)) :
    ∃ pos0 grs0 vid, genPoGrFrom approved r now n = .ok (pos0, grs0) ∧
      pyChoice approved (r.vendorPick (n + 1)) = .ok vid ∧
      pos = pos0 ++ [mkPo r now (n + 1) vid] ∧
      grs = (if r.hasGr (n + 1) then grs0 ++ [mkGr r now (n + 1) vid grs0.length]
             else grs0) := by
  unfold genPoGrFrom at h
  split at h
  next heq => cases h
  next pos0 grs0 heq =>
    split at h
    next heq2 => cases h
    next vid heq2 =>
      split at h
      next hg =>
        rw [Except.ok.injEq, Prod.mk.injEq] at h
        exact ⟨pos0, grs0, vid, heq, heq2, h.1.symm, by rw [if_pos hg]; exact h.2.symm⟩
      next hg =>
        rw [Except.ok.injEq, Prod.mk.injEq] at h
        exact ⟨pos0, grs0, vid, heq, heq2, h.1.symm, by rw [if_neg hg]; exact h.2.symm⟩

/-- Structure of a successful PO/GR run of length `n ≤ NUM_POS`: position
`j` holds the purchase order of iteration `j + 1`; every goods receipt
belongs to an iteration whose 70% draw fired; and the number of receipts
referencing the PO of iteration `j + 1` is one when that draw fired, zero
otherwise. -/
theorem genPoGrFrom_spec {approved : List String} {r : PoRand} {now : Int} :
    ∀ {n : Nat} {pos : List PO} {grs : List GR}, n ≤ NUM_POS →
      genPoGrFrom approved r now n = .ok (pos, grs) →
      pos.length = n ∧
      (∀ j < n, ∃ vid ∈ approved, pos.getD j default = mkPo r now (j + 1) vid) ∧
      (∀ g ∈ grs, ∃ j < n, ∃ vid ∈ approved, ∃ c,
          r.hasGr (j + 1) = true ∧ g = mkGr r now (j + 1) vid c) ∧
      (∀ j < n, (grs.filter (fun g => g.po_id = poIdOf (j + 1))).length =
          if r.hasGr (j + 1) then 1 else 0) := by
  intro n
  induction n with
  | zero =>
    intro pos grs hn h
    cases h
    exact ⟨rfl, by omega, by simp, by omega⟩
  | succ n ih =>
    intro pos grs hn h
    obtain ⟨pos0, grs0, vid, h0, hv, hpos, hgrs⟩ := genPoGrFrom_succ_ok h
    obtain ⟨hlen, hpo, hgr, hcnt⟩ := ih (by omega) h0
    have hvmem : vid ∈ approved := pyChoice_mem hv
    have hfresh : (grs0.filter (fun g => g.po_id = poIdOf (n + 1))).length = 0 := by
      rw [List.length_eq_zero, List.filter_eq_nil_iff]
      intro g hg2
      obtain ⟨j, hj, vid2, _, c, _, rfl⟩ := hgr g hg2
      simp only [mkGr, decide_eq_true_eq]
      exact poIdOf_ne (by omega) (by omega) (by omega)
    have hnewid : (mkGr r now (n + 1) vid grs0.length).po_id = poIdOf (n + 1) := rfl
    have cpos : pos.length = n + 1 := by
      rw [hpos]
      simp [hlen]
    have cpo : ∀ j < n + 1, ∃ vid2 ∈ approved,
        pos.getD j default = mkPo r now (j + 1) vid2 := by
      intro j hj
      by_cases hj2 : j < n
      · obtain ⟨vid2, hv2, he⟩ := hpo j hj2
        refine ⟨vid2, hv2, ?_⟩
        rw [hpos, getD_append_left (by omega)]
        exact he
      · have hjn : j = n := by omega
        refine ⟨vid, hvmem, ?_⟩
        rw [hpos, hjn, ← hlen, getD_append_last]
    have cgr : ∀ g ∈ grs, ∃ j < n + 1, ∃ vid2 ∈ approved, ∃ c,
        r.hasGr (j + 1) = true ∧ g = mkGr r now (j + 1) vid2 c := by
      intro g hg2
      rw [hgrs] at hg2
      by_cases hasgr : r.hasGr (n + 1)
      · rw [if_pos hasgr] at hg2
        rcases List.mem_append.mp hg2 with hm | hm
        · obtain ⟨j, hj, vid2, hv2, c, hc1, hc2⟩ := hgr g hm
          exact ⟨j, by omega, vid2, hv2, c, hc1, hc2⟩
        · have hgeq : g = mkGr r now (n + 1) vid grs0.length := by
            cases hm with
            | head => rfl
            | tail _ hc => cases hc
          exact ⟨n, by omega, vid, hvmem, grs0.length, hasgr, hgeq⟩
      · rw [if_neg hasgr] at hg2
        obtain ⟨j, hj, vid2, hv2, c, hc1, hc2⟩ := hgr g hg2
        exact ⟨j, by omega, vid2, hv2, c, hc1, hc2⟩
    have ccnt : ∀ j < n + 1, (grs.filter (fun g => g.po_id = poIdOf (j + 1))).length =
        if r.hasGr (j + 1) then 1 else 0 := by
      intro j hj
      by_cases hj2 : j < n
      · have hne2 : ¬((mkGr r now (n + 1) vid grs0.length).po_id = poIdOf (j + 1)) := by
          rw [hnewid]
          exact poIdOf_ne (by omega) (by omega) (by omega)
        rw [hgrs]
        by_cases hasgr : r.hasGr (n + 1)
        · rw [if_pos hasgr, List.filter_append, List.length_append]
          have hz : (List.filter (fun g => decide (g.po_id = poIdOf (j + 1)))
              [mkGr r now (n + 1) vid grs0.length]).length = 0 := by
            simp [List.filter, hne2]
          rw [hz]
          have := hcnt j hj2
          omega
        · rw [if_neg hasgr]
          exact hcnt j hj2
      · have hjn : j = n := by omega
        subst hjn
        rw [hgrs]
        by_cases hasgr : r.hasGr (j + 1)
        · rw [if_pos hasgr, if_pos hasgr, List.filter_append, List.length_append, hfresh]
          simp [List.filter, hnewid]
        · rw [if_neg hasgr, if_neg hasgr, hfresh]
    exact ⟨cpos, cpo, cgr, ccnt⟩

theorem mkPo_po_id (r : PoRand) (now : Int) (i : Nat) (vid : String) :
    (mkPo r now i vid).po_id = poIdOf i := rfl

theorem mkPo_status (r : PoRand) (now : Int) (i : Nat) (vid : String) :
    (mkPo r now i vid).status = if r.hasGr i then .CLOSED else .OPEN := rfl

theorem mkPo_date (r : PoRand) (now : Int) (i : Nat) (vid : String) :
    (mkPo r now i vid).po_date = now - 120 + (r.dateOffset i : Int) := rfl

theorem mkPo_amount (r : PoRand) (now : Int) (i : Nat) (vid : String) :
    (mkPo r now i vid).po_amount = round2 (r.amountRaw i) := rfl

theorem mkGr_po_id (r : PoRand) (now : Int) (i : Nat) (vid : String) (c : Nat) :
    (mkGr r now i vid c).po_id = poIdOf i := rfl

theorem mkGr_date (r : PoRand) (now : Int) (i : Nat) (vid : String) (c : Nat) :
    (mkGr r now i vid c).gr_date =
      (now - 120 + (r.dateOffset i : Int)) + (r.grDateOffset i : Int) := rfl

theorem mkGr_amount (r : PoRand) (now : Int) (i : Nat) (vid : String) (c : Nat) :
    (mkGr r now i vid c).gr_amount =
      (if r.grEqual i then round2 (r.amountRaw i)
       else round2 (round2 (r.amountRaw i) * r.grFrac i)) := rfl

/-- C6: for every generated PurchaseOrder `p`, `p.status = CLOSED` holds
exactly when there is exactly one GoodsReceipt whose `po_id` is `p.po_id`;
consequently every GoodsReceipt resolves to a CLOSED PurchaseOrder. -/
theorem po_closed_iff_unique_gr {approved : List String} {r : PoRand}
    {now : Int} {pos : List PO} {grs : List GR}
    (h : genPoGr approved r now = .ok (pos, grs)) :
    (∀ p ∈ pos, (p.status = .CLOSED ↔
      (grs.filter (fun g => g.po_id = p.po_id)).length = 1)) ∧
    (∀ g ∈ grs, ∃ p ∈ pos, p.po_id = g.po_id ∧ p.status = .CLOSED) := by
  obtain ⟨hlen, hpo, hgr, hcnt⟩ := genPoGrFrom_spec (Nat.le_refl _) h
  constructor
  · intro p hp
    obtain ⟨j, hjlt, hpj⟩ := List.mem_iff_getElem.mp hp
    have hj50 : j < NUM_POS := by omega
    obtain ⟨vid2, hv2, he⟩ := hpo j hj50
    rw [List.getD_eq_getElem _ _ hjlt] at he
    rw [← hpj, he]
    have hcj := hcnt j hj50
    simp only [mkPo_po_id, mkPo_status]
    by_cases hasgr : r.hasGr (j + 1)
    · rw [if_pos hasgr] at hcj
      rw [if_pos hasgr]
      exact ⟨fun _ => hcj, fun _ => rfl⟩
    · rw [if_neg hasgr] at hcj
      rw [if_neg hasgr]
      constructor
      · intro hc
        cases hc
      · intro hc
        rw [hcj] at hc
        cases hc
  · intro g hg2
    obtain ⟨j, hj, vid2, hv2, c, hasgr, hge⟩ := hgr g hg2
    obtain ⟨vid3, hv3, he⟩ := hpo j hj
    refine ⟨pos.getD j default, ?_, ?_, ?_⟩
    · rw [List.getD_eq_getElem _ _ (by omega)]
      exact List.getElem_mem _
    · rw [he, hge, mkPo_po_id, mkGr_po_id]
    · rw [he, mkPo_status, if_pos hasgr]

/-- C7 (amended): every GoodsReceipt strictly postdates its PurchaseOrder,
and its amount either equals the PO amount exactly or lies in
[0.95 * amount - 1/200, amount]: the rounding of
`round(po_amount * uniform(0.95, 1.0), 2)` can undershoot the lower edge of
the claimed interval by up to half a cent. -/
theorem gr_date_amount_bounds {approved : List String} {r : PoRand}
    {now : Int} {pos : List PO} {grs : List GR}
    (hv : PoRand.Valid r)
    (h : genPoGr approved r now = .ok (pos, grs)) :
    ∀ g ∈ grs, ∃ p ∈ pos, p.po_id = g.po_id ∧ p.po_date < g.gr_date ∧
      (g.gr_amount = p.po_amount ∨
        (19/20 * p.po_amount - 1/200 ≤ g.gr_amount ∧
          g.gr_amount ≤ p.po_amount)) := by
  obtain ⟨hlen, hpo, hgr, hcnt⟩ := genPoGrFrom_spec (Nat.le_refl _) h
  intro g hg2
  obtain ⟨j, hj, vid2, hv2, c, hasgr, hge⟩ := hgr g hg2
  obtain ⟨vid3, hv3, he⟩ := hpo j hj
  obtain ⟨hdate, hraw1, hraw2, hgd1, hgd2, hf1, hf2⟩ :=
    hv (j + 1) (List.mem_range.mpr (by omega))
  refine ⟨pos.getD j default, ?_, ?_, ?_, ?_⟩
  · rw [List.getD_eq_getElem _ _ (by omega)]
    exact List.getElem_mem _
  · rw [he, hge, mkPo_po_id, mkGr_po_id]
  · rw [he, hge, mkPo_date, mkGr_date]
    have : (10 : Int) ≤ (r.grDateOffset (j + 1) : Int) := by exact_mod_cast hgd1
    omega
  · rw [he, hge, mkPo_amount, mkGr_amount]
    by_cases heq2 : r.grEqual (j + 1)
    · rw [if_pos heq2]
      exact Or.inl rfl
    · rw [if_neg heq2]
      refine Or.inr ⟨?_, ?_⟩
      · have h1 := round2_ge_sub (round2 (r.amountRaw (j + 1)) * r.grFrac (j + 1))
        have hpo0 : (0 : ℚ) ≤ round2 (r.amountRaw (j + 1)) := by
          have := round2_ge_sub (r.amountRaw (j + 1))
          linarith
        have h2 : 19/20 * round2 (r.amountRaw (j + 1)) ≤
            round2 (r.amountRaw (j + 1)) * r.grFrac (j + 1) := by
          rw [mul_comm (19/20 : ℚ)]
          exact mul_le_mul_of_nonneg_left hf1 hpo0
        linarith
      · have hpo0 : (0 : ℚ) ≤ round2 (r.amountRaw (j + 1)) := by
          have := round2_ge_sub (r.amountRaw (j + 1))
          linarith
        have hup : round2 (r.amountRaw (j + 1)) * r.grFrac (j + 1) ≤
            round2 (r.amountRaw (j + 1)) :=
          mul_le_of_le_one_right hpo0 hf2
        have hrepr : round2 (r.amountRaw (j + 1)) =
            ((rndHE (r.amountRaw (j + 1) * 100) : ℤ) : ℚ) / 100 := rfl
        refine round2_le_of_le _ (rndHE (r.amountRaw (j + 1) * 100)) ?_
        rw [← hrepr]
        exact hup

/-- C5 (amended): for every MATCHED invoice, whenever at least one CLOSED
purchase order exists its PO reference resolves to a CLOSED purchase order
among them, and unconditionally the emitted amount fields satisfy
`round(base_amount + cgst + sgst, 2) = total_amount`.  (The resolution
premise is needed: when no PO has a goods receipt, MATCHED invoices are
generated with an empty PO reference.) -/
theorem matched_resolves_and_tax {approved : List String} {posWithGr : List PO}
    {grs : List GR} {r : InvRand} {now : Int} {k : Nat} {invs : List Invoice}
    (hclosed : ∀ po ∈ posWithGr, po.status = .CLOSED)
    (h : genInvoices approved posWithGr grs r now k = .ok invs) :
    ∀ inv ∈ invs, inv.status = .MATCHED →
      (posWithGr ≠ [] → ∃ po ∈ posWithGr, po.po_id = inv.po_reference ∧
        po.status = .CLOSED) ∧
      round2 (inv.base_amount + inv.cgst + inv.sgst) = inv.total_amount := by
  intro inv hm hst
  obtain ⟨acc, hacc, hstep, hlt⟩ := genInvoices_mem_step h hm
  obtain ⟨sel, hsel, rfl⟩ := invStep_ok_elim hstep
  constructor
  · intro hne
    have hstatus : r.pool.getD acc.length .MATCHED = .MATCHED := by
      rw [← invMake_status r now acc sel]
      exact hst
    obtain ⟨po, hpomem, hvend, hporef, hamount⟩ :=
      selectVendorPo_po ⟨Or.inl hstatus, hne⟩ hsel
    refine ⟨po, hpomem, ?_, hclosed po hpomem⟩
    rw [invMake_poRef, hstatus, applyException_not_exception (by decide)]
    exact hporef.symm
  · obtain ⟨A, hb, hc, hs, ht⟩ := invMake_tax r now acc sel
    rw [hb, hc, hs, ht]
    exact round2_tax_identity A

/-- C3 (amended): every EXCEPTION invoice is generated with empty PO and GR
references and an unperturbed amount: EXCEPTION invoices never take the
PO-inheriting branch, so the `amount_mismatch` subtype finds no PO reference
and perturbs nothing, `missing_po` clears references that are already empty,
and `date_issue` does nothing; at most one anomaly is applied and the
amount-perturbation anomaly never fires. -/
theorem exception_invoice_effects {approved : List String} {posWithGr : List PO}
    {grs : List GR} {r : InvRand} {now : Int} {k : Nat} {invs : List Invoice}
    (h : genInvoices approved posWithGr grs r now k = .ok invs) :
    ∀ inv ∈ invs, inv.status = .EXCEPTION →
      inv.po_reference = "" ∧ inv.gr_reference = "" ∧
      ∃ i, 1 ≤ i ∧ i ≤ k ∧
        inv.total_amount = taxTotal (round2 (r.amountRaw i)) ∧
        appliedAnomaly (r.excType i) inv.po_reference ≠ some .perturbAmount := by
  intro inv hm hst
  obtain ⟨acc, hacc, hstep, hlt⟩ := genInvoices_mem_step h hm
  obtain ⟨sel, hsel, rfl⟩ := invStep_ok_elim hstep
  have hstatus : r.pool.getD acc.length .MATCHED = .EXCEPTION := by
    rw [← invMake_status r now acc sel]
    exact hst
  have hcnot : ¬((r.pool.getD acc.length .MATCHED = .MATCHED ∨
      r.pool.getD acc.length .MATCHED = .PAID) ∧ posWithGr ≠ []) := by
    rw [hstatus]
    simp
  obtain ⟨hvm, hpr, hgr2, hamt⟩ := selectVendorPo_not_po hcnot hsel
  have happ : applyException r (acc.length + 1) (r.pool.getD acc.length .MATCHED)
      sel.amount sel.poRef sel.grRef = (sel.amount, "", "") := by
    rw [hstatus, hpr, hgr2]
    exact applyException_empty_refs r (acc.length + 1) sel.amount
  refine ⟨?_, ?_, acc.length + 1, by omega, by omega, ?_, ?_⟩
  · rw [invMake_poRef, happ]
  · rw [invMake_grRef, happ]
  · rw [invMake_total, happ, hamt]
  · rw [invMake_poRef, happ]
    cases hex : r.excType (acc.length + 1) <;> simp [appliedAnomaly]

theorem InvRand.Valid.dupPick_bounds {r : InvRand} {k : Nat} (h : r.Valid k)
    {i : Nat} (h1 : i ≤ k) (h2 : 10 < i) :
    i - 20 ≤ r.dupPick i ∧ r.dupPick i ≤ i - 2 :=
  (h.2 i (List.mem_range.mpr (by omega))).2.2.2.2.2.2 h2

/-- Every invoice of a valid run references a vendor from the approved list:
the PO-inheriting branch takes the vendor of a generated purchase order, the
plain branch draws from the approved list, and the DUPLICATE branch copies
the vendor of an earlier invoice. -/
theorem genInvoices_vendor_approved {approved : List String}
    {posWithGr : List PO} {grs : List GR} {r : InvRand} {now : Int} {k : Nat}
    (hval : InvRand.Valid r k)
    (hpo : ∀ po ∈ posWithGr, po.vendor_id ∈ approved) :
    ∀ {n invs}, n ≤ k → genInvoices approved posWithGr grs r now n = .ok invs →
      ∀ inv ∈ invs, inv.vendor_id ∈ approved := by
  intro n
  induction n with
  | zero =>
    intro invs hn h inv hm
    cases h
    cases hm
  | succ n ih =>
    intro invs hn h inv hm
    obtain ⟨acc, inv2, hacc, hstep, rfl⟩ := genInvoices_succ_ok h
    rcases List.mem_append.mp hm with hm | hm
    · exact ih (by omega) hacc inv hm
    · have hinv : inv = inv2 := by
        cases hm with
        | head => rfl
        | tail _ hc => cases hc
      subst hinv
      obtain ⟨sel, hsel, rfl⟩ := invStep_ok_elim hstep
      have hlen := genInvoices_length hacc
      by_cases hdup : r.pool.getD acc.length .MATCHED = .DUPLICATE ∧
          10 < acc.length + 1
      · rw [(invMake_duplicate hdup.1 hdup.2).2]
        have hb := hval.dupPick_bounds (i := acc.length + 1) (by omega) hdup.2
        have hrange : r.dupPick (acc.length + 1) < acc.length := by omega
        rw [List.getD_eq_getElem _ _ hrange]
        exact ih (by omega) hacc _ (List.getElem_mem _)
      · rw [invMake_vendor_not_dup hdup]
        by_cases hc : (r.pool.getD acc.length .MATCHED = .MATCHED ∨
            r.pool.getD acc.length .MATCHED = .PAID) ∧ posWithGr ≠ []
        · obtain ⟨po, hpomem, hvend, _, _⟩ := selectVendorPo_po hc hsel
          rw [hvend]
          exact hpo po hpomem
        · exact (selectVendorPo_not_po hc hsel).1

theorem vendorIdOf_inj : ∀ i ∈ List.range (NUM_VENDORS + 1),
    ∀ j ∈ List.range (NUM_VENDORS + 1), vendorIdOf i = vendorIdOf j → i = j := by
  decide!

theorem genVendors_mem {r : VendorRand} {now : Int} {v : Vendor} :
    v ∈ genVendors r now ↔ ∃ k, k < NUM_VENDORS ∧
      v = { vendor_id := vendorIdOf (k + 1), status := r.statuses.getD k .APPROVED,
            risk_band := r.riskBands.getD k .LOW,
            onboarding_date := now - 180 + (r.onboardOffset (k + 1) : Int) } := by
  unfold genVendors
  constructor
  · intro h
    obtain ⟨a, ha, he⟩ := List.mem_map.mp h
    exact ⟨a, List.mem_range.mp ha, he.symm⟩
  · rintro ⟨k, hk, rfl⟩
    exact List.mem_map.mpr ⟨k, List.mem_range.mpr hk, rfl⟩

theorem approvedIds_spec {vs : List Vendor} {id : String} :
    id ∈ approvedIds vs ↔ ∃ v ∈ vs, v.vendor_id = id ∧ v.status = .APPROVED := by
  unfold approvedIds
  constructor
  · intro h
    obtain ⟨v, hv, he⟩ := List.mem_map.mp h
    obtain ⟨hv2, hst⟩ := List.mem_filter.mp hv
    exact ⟨v, hv2, he, by simpa using hst⟩
  · rintro ⟨v, hv, rfl, hst⟩
    exact List.mem_map.mpr ⟨v, List.mem_filter.mpr ⟨hv, by simpa using hst⟩, rfl⟩

/-- C10: every generated invoice, of any status and with or without a PO
linkage, carries a `vendor_id` that resolves to an APPROVED vendor of the
generated vendor table; every vendor holding that identifier is APPROVED,
so no PENDING, REJECTED or nonexistent vendor is ever referenced. -/
theorem invoice_vendor_always_approved {vr : VendorRand} {pr : PoRand}
    {ir : InvRand} {now : Int} {pos : List PO} {grs : List GR}
    {invs : List Invoice}
    (hval : InvRand.Valid ir NUM_INVOICES)
    (hpo : genPoGr (approvedIds (genVendors vr now)) pr now = .ok (pos, grs))
    (hinv : genInvoices (approvedIds (genVendors vr now))
      (pos.filter (fun p => p.status = .CLOSED)) grs ir now NUM_INVOICES =
        .ok invs) :
    ∀ inv ∈ invs, ∃ v ∈ genVendors vr now, v.vendor_id = inv.vendor_id ∧
      v.status = .APPROVED ∧
      (∀ v2 ∈ genVendors vr now, v2.vendor_id = inv.vendor_id →
        v2.status = .APPROVED) := by
  have hpov : ∀ po ∈ pos.filter (fun p => p.status = .CLOSED),
      po.vendor_id ∈ approvedIds (genVendors vr now) := by
    intro po hmem
    have hmem2 := (List.mem_filter.mp hmem).1
    obtain ⟨hlen, hspec, _, _⟩ := genPoGrFrom_spec (Nat.le_refl _) hpo
    obtain ⟨j, hjlt, hpj⟩ := List.mem_iff_getElem.mp hmem2
    obtain ⟨vid2, hv2, he⟩ := hspec j (by omega)
    rw [List.getD_eq_getElem _ _ hjlt] at he
    rw [← hpj, he]
    exact hv2
  intro inv hm
  have hia : inv.vendor_id ∈ approvedIds (genVendors vr now) :=
    genInvoices_vendor_approved hval hpov (Nat.le_refl _) hinv inv hm
  obtain ⟨v, hv, hid, hst⟩ := approvedIds_spec.mp hia
  refine ⟨v, hv, hid, hst, ?_⟩
  intro v2 hv2 hid2
  obtain ⟨k, hk, rfl⟩ := genVendors_mem.mp hv
  obtain ⟨k2, hk2, rfl⟩ := genVendors_mem.mp hv2
  have h12 : vendorIdOf (k2 + 1) = vendorIdOf (k + 1) := hid2.trans hid.symm
  have hkk : k2 + 1 = k + 1 :=
    vendorIdOf_inj _ (List.mem_range.mpr (by omega)) _
      (List.mem_range.mpr (by omega)) h12
  have hk2k : k2 = k := by omega
  subst hk2k
  exact hst

/-- The DUPLICATE branch of a valid run copies the number and vendor of the
invoice at 0-based position `dupPick i` of the list generated so far, and
those fields are stable under the later appends. -/
theorem genInvoices_dup_copy {approved : List String} {posWithGr : List PO}
    {grs : List GR} {r : InvRand} {now : Int} {k : Nat}
    (hval : InvRand.Valid r k) :
    ∀ {n invs}, n ≤ k → genInvoices approved posWithGr grs r now n = .ok invs →
      ∀ i, 1 ≤ i → i ≤ n → (invs.getD (i-1) default).status = .DUPLICATE →
        10 < i →
        (invs.getD (i-1) default).invoice_number =
          (invs.getD (r.dupPick i) default).invoice_number ∧
        (invs.getD (i-1) default).vendor_id =
          (invs.getD (r.dupPick i) default).vendor_id := by
  intro n
  induction n with
  | zero =>
    intro invs hn h i h1 h2
    omega
  | succ n ih =>
    intro invs hn h i h1 h2 hst hgt
    obtain ⟨acc, inv2, hacc, hstep, rfl⟩ := genInvoices_succ_ok h
    have hlen := genInvoices_length hacc
    subst hlen
    by_cases hi : i ≤ acc.length
    · have hb := hval.dupPick_bounds (i := i) (by omega) hgt
      have hd1 : i - 1 < acc.length := by omega
      have hd2 : r.dupPick i < acc.length := by omega
      rw [getD_append_left hd1, getD_append_left hd2]
      rw [getD_append_left hd1] at hst
      exact ih (by omega) hacc i h1 hi hst hgt
    · have hieq : i = acc.length + 1 := by omega
      subst hieq
      obtain ⟨sel, hsel, rfl⟩ := invStep_ok_elim hstep
      have hL : ∀ d : Invoice, (acc ++ [invMake r now acc sel]).getD
          (acc.length + 1 - 1) d = invMake r now acc sel := by
        intro d
        have h9 := getD_append_last (l := acc) (x := invMake r now acc sel) d
        rw [Nat.add_sub_cancel]
        exact h9
      rw [hL] at hst
      have hdup : r.pool.getD acc.length .MATCHED = .DUPLICATE := by
        rw [← invMake_status r now acc sel]
        exact hst
      have hb := hval.dupPick_bounds (i := acc.length + 1) (by omega) hgt
      have hd2 : r.dupPick (acc.length + 1) < acc.length := by omega
      rw [hL, getD_append_left hd2]
      exact invMake_duplicate hdup hgt

/-- C1 (amended): a DUPLICATE invoice at 1-based index `i > 10` copies
`invoice_number` and `vendor_id` verbatim from the earlier invoice at
1-based index `dupPick i + 1`, which lies in `[max 1 (i-20), i-1]`; the
upper end is `i-1`, so the immediately preceding invoice can be chosen.
(The source draws `randint(max(0, i-20), i-2)` over 0-based positions into
the list built so far, whose positions are the 1-based indices shifted down
by one.) -/
theorem duplicate_lookback_window {approved : List String} {posWithGr : List PO}
    {grs : List GR} {r : InvRand} {now : Int} {k : Nat} {invs : List Invoice}
    (hval : InvRand.Valid r k)
    (h : genInvoices approved posWithGr grs r now k = .ok invs) :
    ∀ i, 1 ≤ i → i ≤ k → (invs.getD (i-1) default).status = .DUPLICATE →
      10 < i →
      ∃ j, max 1 (i - 20) ≤ j ∧ j ≤ i - 1 ∧ j = r.dupPick i + 1 ∧
        (invs.getD (i-1) default).invoice_number =
          (invs.getD (j-1) default).invoice_number ∧
        (invs.getD (i-1) default).vendor_id =
          (invs.getD (j-1) default).vendor_id := by
  intro i h1 h2 hst hgt
  have hb := hval.dupPick_bounds h2 hgt
  have hc := genInvoices_dup_copy hval (Nat.le_refl k) h i h1 h2 hst hgt
  exact ⟨r.dupPick i + 1, by omega, by omega, rfl, by simpa using hc.1,
    by simpa using hc.2⟩

/-- If a list has length `n`, reading positions `0..n-1` with a default
recovers the list. -/
theorem map_getD_range {α : Type} {l : List α} {n : Nat} (h : l.length = n)
    (d : α) : (List.range n).map (fun k => l.getD k d) = l := by
  apply List.ext_getElem
  · simp [h]
  · intro i h1 h2
    simp [List.getD_eq_getElem _ _ h2, List.getElem?_eq_getElem h2]

/-- C8: when the 20 vendors are generated from the shuffled pool of
15 APPROVED, 3 PENDING and 2 REJECTED entries, the output contains exactly
15, 3 and 2 vendors of the respective statuses, whatever the shuffle. -/
theorem vendor_status_counts_exact (r : VendorRand) (now : Int)
    (h : r.statuses.Perm statusesPool) :
    countStatus (genVendors r now) .APPROVED = 15 ∧
    countStatus (genVendors r now) .PENDING = 3 ∧
    countStatus (genVendors r now) .REJECTED = 2 := by
  have hlen : r.statuses.length = NUM_VENDORS := by
    have := h.length_eq
    simpa [statusesPool] using this
  have hmap : (genVendors r now).map (fun v => v.status) = r.statuses := by
    unfold genVendors
    rw [List.map_map]
    exact map_getD_range hlen .APPROVED
  unfold countStatus
  rw [hmap, h.count_eq, h.count_eq, h.count_eq]
  refine ⟨?_, ?_, ?_⟩ <;> decide!

/-- C9: the supplier-history decision table checks the RENEW branch first:
any generated row with on-time rate above 95, dispute rate below 2 and a
LOW risk band gets recommendation RENEW with trend STABLE, and the decision
table itself maps the inputs 96 / 1 / LOW to exactly (RENEW, STABLE)
whichever way the MONITOR-branch trend draw would have gone. -/
theorem supplier_renew_branch_first (vendors : List Vendor)
    (invoices : List Invoice) (r : SupRand) :
    (∀ vids idx rows,
      genSupplierHistoryFrom vendors invoices r vids idx = .ok rows →
      ∀ row ∈ rows, 95 < row.on_time_rate → row.dispute_rate < 2 →
        row.risk_band = .LOW →
        row.recommendation = .RENEW ∧ row.risk_trend = .STABLE) ∧
    ∀ pick, recommendFor 96 1 .LOW pick = (.RENEW, .STABLE) := by
  constructor
  · intro vids
    induction vids with
    | nil =>
      intro idx rows h row hm
      cases h
      cases hm
    | cons vid rest ih =>
      intro idx rows h row hm h1 h2 h3
      simp only [genSupplierHistoryFrom] at h
      by_cases he : (List.filter (fun inv => inv.vendor_id = vid) invoices).isEmpty = true
      · rw [if_pos he] at h
        exact ih _ _ h row hm h1 h2 h3
      · rw [if_neg he] at h
        split at h
        next => cases h
        next v hfind =>
          split at h
          next => cases h
          next tail htail =>
            cases h
            cases hm with
            | tail _ hm2 => exact ih _ _ htail row hm2 h1 h2 h3
            | head =>
              have hcond : 95 < round2 (r.onTimeRaw idx) ∧
                  round2 (r.disputeRaw idx) < 2 ∧ v.risk_band = .LOW :=
                ⟨h1, h2, h3⟩
              constructor
              · show (recommendFor (round2 (r.onTimeRaw idx))
                    (round2 (r.disputeRaw idx)) v.risk_band (r.trendPick idx)).1 =
                    .RENEW
                unfold recommendFor
                rw [if_pos hcond]
              · show (recommendFor (round2 (r.onTimeRaw idx))
                    (round2 (r.disputeRaw idx)) v.risk_band (r.trendPick idx)).2 =
                    .STABLE
                unfold recommendFor
                rw [if_pos hcond]
  · intro pick
    norm_num [recommendFor]

/-- C2 (amended): the pipeline output is a function of the random oracle
(the seeded generator state) and the wall clock alone: two runs agreeing on
both produce identical output tables.  Agreement on the seed alone is not
enough, because every date column is derived from `datetime.now()`. -/
theorem pipeline_deterministic_given_seed_and_clock (r1 r2 : PipelineRand)
    (now1 now2 : Int) (hr : r1 = r2) (ht : now1 = now2) :
    runPipeline r1 now1 = runPipeline r2 now2 := by
  subst hr
  subst ht
  rfl

/-- C4 (amended): requesting the invoices with an empty approved-vendor pool
(and hence no generated POs or GRs) aborts at the first invoice with the
bare IndexError that `random.choice` raises on an empty sequence — an error
carrying neither a precondition description nor the requested counts — and
no invoice is emitted; nothing falls back to a synthesized default. -/
theorem no_approved_vendors_invoices_abort (r : InvRand) (now : Int) :
    genInvoices [] [] [] r now NUM_INVOICES = .error .indexError := by
  have hstep1 : ∀ m, genInvoices [] [] [] r now (m + 1) = .error .indexError := by
    intro m
    induction m with
    | zero =>
      show genInvoices [] [] [] r now 1 = .error .indexError
      simp [genInvoices, invStep, selectVendorPo, pyChoice]
    | succ m ih =>
      show genInvoices [] [] [] r now (m + 1 + 1) = .error .indexError
      unfold genInvoices
      rw [ih]
  exact hstep1 79

-- ===========================================================================
-- Concrete runs: counterexamples and witnesses
-- ===========================================================================

/-- Oracle for a concrete invoice run: identity shuffle of the status pool,
vendor draw 1 at invoice 50 and 0 elsewhere, freestanding amounts 10000,
duplicate draw at the top of the window, fresh number suffix `i`. -/
def c1Rand : InvRand :=
  ⟨invoiceStatusPool, fun _ => 0, fun i => if i = 50 then 1 else 0,
   fun _ => 10000, fun _ => 0, fun _ => .amount_mismatch, fun _ => 1,
   fun i => i - 2, fun i => i⟩

def c1Approved : List String := [vendorIdOf 1, vendorIdOf 2]

def c1Invs : List Invoice :=
  okD (genInvoices c1Approved [] [] c1Rand 0 NUM_INVOICES) []

/-- C1 counterexample: under the identity shuffle invoice 51 is a DUPLICATE
and the draw `randint(max(0, 51-20), 51-2) = 49` picks 0-based position 49
of the list built so far — invoice 50, the immediately preceding one.  Its
1-based index 50 lies outside the interval `[max(1, 51-20), 51-2] = [31, 49]`
asserted by the claim.  The copy is visible in the output: invoice 51 shares
number and vendor with invoice 50 (whose vendor differs from all others) and
matches none of the invoices at 1-based indices 31..49. -/
theorem duplicate_copies_immediately_preceding :
    InvRand.Valid c1Rand 80 ∧ c1Rand.pool.Perm invoiceStatusPool ∧
    genInvoices c1Approved [] [] c1Rand 0 NUM_INVOICES = .ok c1Invs ∧
    (c1Invs.getD 50 default).status = .DUPLICATE ∧
    c1Rand.dupPick 51 + 1 = 50 ∧ ¬(50 ≤ 51 - 2) ∧
    (c1Invs.getD 50 default).invoice_number =
      (c1Invs.getD 49 default).invoice_number ∧
    (c1Invs.getD 50 default).vendor_id = (c1Invs.getD 49 default).vendor_id ∧
    (c1Invs.getD 50 default).vendor_id = vendorIdOf 2 ∧
    ((List.range 19).all fun t =>
      (c1Invs.getD 50 default).invoice_number !=
        (c1Invs.getD (30 + t) default).invoice_number) = true := by
  refine ⟨?_, List.Perm.refl _, ?_, ?_, ?_, ?_, ?_, ?_, ?_, ?_⟩ <;> decide!

/-- C1 witness: the amended claim instantiated on the same concrete run at
invoice index 51. -/
theorem duplicate_lookback_window_witness :
    ∃ j, max 1 (51 - 20) ≤ j ∧ j ≤ 51 - 1 ∧ j = c1Rand.dupPick 51 + 1 ∧
      (c1Invs.getD (51-1) default).invoice_number =
        (c1Invs.getD (j-1) default).invoice_number ∧
      (c1Invs.getD (51-1) default).vendor_id =
        (c1Invs.getD (j-1) default).vendor_id :=
  @duplicate_lookback_window c1Approved [] [] c1Rand 0 80 c1Invs (by decide!)
    (by decide!) 51 (by decide!) (by decide!) (by decide!) (by decide!)

/-- Oracle for a concrete run whose EXCEPTION invoices all draw the
`date_issue` subtype. -/
def c3Rand : InvRand :=
  ⟨invoiceStatusPool, fun _ => 0, fun _ => 0, fun _ => 10000, fun _ => 0,
   fun _ => .date_issue, fun _ => 13/10, fun i => i - 2, fun i => i⟩

def c3Approved : List String := [vendorIdOf 1]

def c3Invs : List Invoice :=
  okD (genInvoices c3Approved [] [] c3Rand 0 NUM_INVOICES) []

/-- C3 counterexample: invoice 61 has status EXCEPTION with the `date_issue`
subtype: no anomaly is applied at all.  Its references were never set (so
nothing is stripped) and its total is exactly the unperturbed synthesis of
its freestanding amount, refuting "exactly one injected anomaly ... never
both absent". -/
theorem exception_with_no_anomaly :
    InvRand.Valid c3Rand 80 ∧ c3Rand.pool.Perm invoiceStatusPool ∧
    genInvoices c3Approved [] [] c3Rand 0 NUM_INVOICES = .ok c3Invs ∧
    (c3Invs.getD 60 default).status = .EXCEPTION ∧
    c3Rand.excType 61 = .date_issue ∧
    (c3Invs.getD 60 default).po_reference = "" ∧
    (c3Invs.getD 60 default).gr_reference = "" ∧
    (c3Invs.getD 60 default).total_amount =
      taxTotal (round2 (c3Rand.amountRaw 61)) ∧
    appliedAnomaly (c3Rand.excType 61)
      (c3Invs.getD 60 default).po_reference = none := by
  refine ⟨?_, List.Perm.refl _, ?_, ?_, ?_, ?_, ?_, ?_, ?_⟩ <;> decide!

/-- C3 witness: the amended claim instantiated on the same run at invoice 61. -/
theorem exception_invoice_effects_witness :
    (c3Invs.getD 60 default).po_reference = "" ∧
    (c3Invs.getD 60 default).gr_reference = "" ∧
    ∃ i, 1 ≤ i ∧ i ≤ NUM_INVOICES ∧
      (c3Invs.getD 60 default).total_amount =
        taxTotal (round2 (c3Rand.amountRaw i)) ∧
      appliedAnomaly (c3Rand.excType i)
        (c3Invs.getD 60 default).po_reference ≠ some .perturbAmount :=
  @exception_invoice_effects c3Approved [] [] c3Rand 0 NUM_INVOICES c3Invs
    (by decide!) (c3Invs.getD 60 default) (by decide!) (by decide!)

/-- PO oracle whose 70% goods-receipt draw never fires: all POs stay OPEN. -/
def c5PoRand : PoRand :=
  ⟨fun _ => 0, fun _ => 0, fun _ => 50000, fun _ => false, fun _ => 10,
   fun _ => true, fun _ => 19/20⟩

def c5Approved : List String := [vendorIdOf 1]

def c5PoGr : List PO × List GR := okD (genPoGr c5Approved c5PoRand 0) ([], [])

def c5InvRand : InvRand :=
  ⟨invoiceStatusPool, fun _ => 0, fun _ => 0, fun _ => 10000, fun _ => 0,
   fun _ => .amount_mismatch, fun _ => 1, fun i => i - 2, fun i => i⟩

def c5Invs : List Invoice :=
  okD (genInvoices c5Approved (c5PoGr.1.filter (fun p => p.status = .CLOSED))
    c5PoGr.2 c5InvRand 0 NUM_INVOICES) []

/-- C5 counterexample: when the goods-receipt draw fires for no PO, all 50
POs stay OPEN and the CLOSED-PO list is empty, so invoice 1 — MATCHED by the
identity shuffle — is generated with an empty PO reference that resolves to
no purchase order at all, CLOSED or otherwise. -/
theorem matched_invoice_without_closed_po :
    PoRand.Valid c5PoRand ∧ InvRand.Valid c5InvRand 80 ∧
    c5InvRand.pool.Perm invoiceStatusPool ∧
    genPoGr c5Approved c5PoRand 0 = .ok (c5PoGr.1, c5PoGr.2) ∧
    c5PoGr.1.length = 50 ∧
    c5PoGr.1.filter (fun p => p.status = .CLOSED) = [] ∧
    genInvoices c5Approved (c5PoGr.1.filter (fun p => p.status = .CLOSED))
      c5PoGr.2 c5InvRand 0 NUM_INVOICES = .ok c5Invs ∧
    (c5Invs.getD 0 default).status = .MATCHED ∧
    (c5Invs.getD 0 default).po_reference = "" ∧
    (c5PoGr.1.all fun p =>
      p.po_id != (c5Invs.getD 0 default).po_reference) = true := by
  refine ⟨?_, ?_, List.Perm.refl _, ?_, ?_, ?_, ?_, ?_, ?_, ?_⟩ <;> decide!

/-- PO oracle whose goods-receipt draw always fires: all POs CLOSED. -/
def c5wPoRand : PoRand :=
  ⟨fun _ => 0, fun _ => 0, fun _ => 50000, fun _ => true, fun _ => 10,
   fun _ => true, fun _ => 19/20⟩

def c5wPoGr : List PO × List GR := okD (genPoGr c5Approved c5wPoRand 0) ([], [])

def c5wPos : List PO := c5wPoGr.1.filter (fun p => p.status = .CLOSED)

def c5wInvs : List Invoice :=
  okD (genInvoices c5Approved c5wPos c5wPoGr.2 c5InvRand 0 NUM_INVOICES) []

/-- C5 witness: the amended claim instantiated on a run where every PO is
CLOSED, at invoice 1 (MATCHED). -/
theorem matched_resolves_and_tax_witness :
    (c5wPos ≠ [] → ∃ po ∈ c5wPos,
      po.po_id = (c5wInvs.getD 0 default).po_reference ∧
      po.status = .CLOSED) ∧
    round2 ((c5wInvs.getD 0 default).base_amount +
        (c5wInvs.getD 0 default).cgst + (c5wInvs.getD 0 default).sgst) =
      (c5wInvs.getD 0 default).total_amount :=
  @matched_resolves_and_tax c5Approved c5wPos c5wPoGr.2 c5InvRand 0
    NUM_INVOICES c5wInvs (by decide!) (by decide!)
    (c5wInvs.getD 0 default) (by decide!) (by decide!)

/-- PO oracle that alternates the goods-receipt draw: even iterations get a
receipt, odd ones stay OPEN. -/
def c6Rand : PoRand :=
  ⟨fun _ => 0, fun _ => 0, fun _ => 50000, fun i => i % 2 == 0, fun _ => 10,
   fun _ => true, fun _ => 19/20⟩

def c6Out : List PO × List GR := okD (genPoGr [vendorIdOf 1] c6Rand 0) ([], [])

/-- C6 witness: the claim instantiated on a mixed OPEN/CLOSED run, at the
first PO (OPEN, no receipt) and the first goods receipt. -/
theorem po_closed_iff_unique_gr_witness :
    ((c6Out.1.getD 0 default).status = .CLOSED ↔
      (c6Out.2.filter (fun g =>
        g.po_id = (c6Out.1.getD 0 default).po_id)).length = 1) ∧
    (∃ p ∈ c6Out.1, p.po_id = (c6Out.2.getD 0 default).po_id ∧
      p.status = .CLOSED) :=
  ⟨(@po_closed_iff_unique_gr [vendorIdOf 1] c6Rand 0 c6Out.1 c6Out.2
      (by decide!)).1 (c6Out.1.getD 0 default) (by decide!),
   (@po_closed_iff_unique_gr [vendorIdOf 1] c6Rand 0 c6Out.1 c6Out.2
      (by decide!)).2 (c6Out.2.getD 0 default) (by decide!)⟩

/-- PO oracle hitting the rounding boundary: raw amount 50000.15, receipt
fraction exactly 0.95 and the 80% equality draw failing. -/
def c7cRand : PoRand :=
  ⟨fun _ => 0, fun _ => 0, fun _ => 5000015/100, fun _ => true, fun _ => 10,
   fun _ => false, fun _ => 19/20⟩

def c7cOut : List PO × List GR := okD (genPoGr [vendorIdOf 1] c7cRand 0) ([], [])

/-- C7 counterexample: for PO amount 50000.15 and fraction 0.95 the receipt
amount `round(50000.15 * 0.95, 2) = 47500.14` falls a quarter of a cent
below `0.95 * 50000.15 = 47500.1425`, so it lies outside the claimed
interval `[0.95, 1.0] * po_amount` and differs from the PO amount. -/
theorem gr_amount_outside_claimed_interval :
    PoRand.Valid c7cRand ∧
    genPoGr [vendorIdOf 1] c7cRand 0 = .ok (c7cOut.1, c7cOut.2) ∧
    (c7cOut.1.getD 0 default).po_id = (c7cOut.2.getD 0 default).po_id ∧
    (c7cOut.1.getD 0 default).po_amount = 5000015/100 ∧
    (c7cOut.2.getD 0 default).gr_amount = 4750014/100 ∧
    ¬((c7cOut.2.getD 0 default).gr_amount =
        (c7cOut.1.getD 0 default).po_amount ∨
      (19/20 * (c7cOut.1.getD 0 default).po_amount ≤
          (c7cOut.2.getD 0 default).gr_amount ∧
        (c7cOut.2.getD 0 default).gr_amount ≤
          (c7cOut.1.getD 0 default).po_amount)) := by
  refine ⟨?_, ?_, ?_, ?_, ?_, ?_⟩ <;> decide!

/-- C7 witness: the amended claim instantiated on the same boundary run at
the first goods receipt. -/
theorem gr_date_amount_bounds_witness :
    ∃ p ∈ c7cOut.1, p.po_id = (c7cOut.2.getD 0 default).po_id ∧
      p.po_date < (c7cOut.2.getD 0 default).gr_date ∧
      ((c7cOut.2.getD 0 default).gr_amount = p.po_amount ∨
        (19/20 * p.po_amount - 1/200 ≤ (c7cOut.2.getD 0 default).gr_amount ∧
          (c7cOut.2.getD 0 default).gr_amount ≤ p.po_amount)) :=
  @gr_date_amount_bounds [vendorIdOf 1] c7cRand 0 c7cOut.1 c7cOut.2
    (by decide!) (by decide!) (c7cOut.2.getD 0 default) (by decide!)

def c8Rand : VendorRand := ⟨statusesPool, riskBandsPool, fun _ => 0⟩

/-- C8 witness: the claim instantiated at the identity shuffle. -/
theorem vendor_status_counts_exact_witness :
    countStatus (genVendors c8Rand 0) .APPROVED = 15 ∧
    countStatus (genVendors c8Rand 0) .PENDING = 3 ∧
    countStatus (genVendors c8Rand 0) .REJECTED = 2 :=
  vendor_status_counts_exact c8Rand 0 (List.Perm.refl _)

def c9Vendors : List Vendor := [⟨vendorIdOf 1, .APPROVED, .LOW, 0⟩]

def c9Invoice : Invoice :=
  ⟨"INV-0001", vendorIdOf 1, "INV-0001-0001", 0, 100, 9, 9, 0, 118,
   .MATCHED, "", ""⟩

def c9Sup : SupRand := ⟨fun _ => 96, fun _ => 1, fun _ => true⟩

def c9Rows : List SupplierHistory :=
  okD (genSupplierHistoryFrom c9Vendors [c9Invoice] c9Sup [vendorIdOf 1] 0) []

/-- C9 witness: a vendor with drawn KPIs 96 / 1 and LOW risk gets RENEW and
STABLE, and the decision table itself maps 96 / 1 / LOW to exactly that. -/
theorem supplier_renew_branch_first_witness :
    ((c9Rows.getD 0 default).recommendation = .RENEW ∧
      (c9Rows.getD 0 default).risk_trend = .STABLE) ∧
    recommendFor 96 1 .LOW true = (.RENEW, .STABLE) :=
  ⟨(supplier_renew_branch_first c9Vendors [c9Invoice] c9Sup).1
      [vendorIdOf 1] 0 c9Rows (by decide!) (c9Rows.getD 0 default)
      (by decide!) (by decide!) (by decide!) (by decide!),
   (supplier_renew_branch_first c9Vendors [c9Invoice] c9Sup).2 true⟩

/-- A full concrete pipeline oracle: identity shuffles, constant draws. -/
def c2Rand : PipelineRand :=
  ⟨⟨statusesPool, riskBandsPool, fun _ => 0⟩,
   ⟨fun _ => 0, fun _ => 0, fun _ => 50000, fun i => i % 2 == 0, fun _ => 10,
    fun _ => true, fun _ => 19/20⟩,
   ⟨invoiceStatusPool, fun _ => 0, fun _ => 0, fun _ => 10000, fun _ => 0,
    fun _ => .date_issue, fun _ => 1, fun i => i - 2, fun i => i⟩,
   ⟨fun _ => 96, fun _ => 1, fun _ => true⟩⟩

/-- C2 counterexample: two runs with the identical random oracle — that is,
the identical seeded generator state — but wall clocks one day apart produce
different output tables: every date column is an offset from
`datetime.now()`, so the output depends on external state beyond the seed
and the two runs are not byte-identical. -/
theorem identical_seed_different_clock_output_differs :
    runPipeline c2Rand 0 ≠ runPipeline c2Rand 1 := by decide!

/-- C2 witness: the amended claim instantiated at the concrete oracle and a
fixed clock. -/
theorem pipeline_deterministic_witness :
    runPipeline c2Rand 0 = runPipeline c2Rand 0 :=
  pipeline_deterministic_given_seed_and_clock c2Rand c2Rand 0 0 rfl rfl

def c4Rand : InvRand :=
  ⟨invoiceStatusPool, fun _ => 0, fun _ => 0, fun _ => 10000, fun _ => 0,
   fun _ => .date_issue, fun _ => 1, fun i => i - 2, fun i => i⟩

/-- C4 counterexample: with zero approved vendors the invoice phase fails
with the bare `indexError` of `random.choice` on an empty sequence, not
with the prescribed "generation precondition failed" kind: the raised error
carries no precondition description and no requested counts. -/
theorem no_approved_vendors_error_carries_nothing :
    genInvoices [] [] [] c4Rand 0 NUM_INVOICES = .error .indexError ∧
    RunError.isPreconditionFailed .indexError = false := by
  refine ⟨?_, rfl⟩
  decide!

def c10V : VendorRand := ⟨statusesPool, riskBandsPool, fun _ => 0⟩

def c10P : PoRand :=
  ⟨fun _ => 0, fun _ => 0, fun _ => 50000, fun i => i % 2 == 0, fun _ => 10,
   fun _ => true, fun _ => 19/20⟩

def c10I : InvRand :=
  ⟨invoiceStatusPool, fun _ => 0, fun _ => 0, fun _ => 10000, fun _ => 0,
   fun _ => .date_issue, fun _ => 1, fun i => i - 2, fun i => i⟩

def c10PoGr : List PO × List GR :=
  okD (genPoGr (approvedIds (genVendors c10V 0)) c10P 0) ([], [])

def c10Invs : List Invoice :=
  okD (genInvoices (approvedIds (genVendors c10V 0))
    (c10PoGr.1.filter (fun p => p.status = .CLOSED)) c10PoGr.2 c10I 0
    NUM_INVOICES) []

/-- C10 witness: the claim instantiated on a full concrete three-phase run
at invoice 1. -/
theorem invoice_vendor_always_approved_witness :
    ∃ v ∈ genVendors c10V 0,
      v.vendor_id = (c10Invs.getD 0 default).vendor_id ∧
      v.status = .APPROVED ∧
      (∀ v2 ∈ genVendors c10V 0,
        v2.vendor_id = (c10Invs.getD 0 default).vendor_id →
          v2.status = .APPROVED) :=
  @invoice_vendor_always_approved c10V c10P c10I 0 c10PoGr.1 c10PoGr.2
    c10Invs (by decide!) (by decide!) (by decide!)
    (c10Invs.getD 0 default) (by decide!)
